import Mathlib

/-!
# suave-puzzle: the `framework` package

A shallow embedding of `framework/framework.go` (artifact loading, the
contract handle with its revert decoding, account funding) together with the
library routines it calls (`encoding/hex`, `strings.HasPrefix`, the ABI
argument unpacker of go-ethereum), followed by the properties proved about it.

Go strings and byte slices are lists of bytes.  The remote node is an explicit
world state threaded through every call; each embedded operation also records
the sequence of library and node calls it performed.
-/

namespace SuavePuzzle

/-! ## Bytes and Go strings -/

deriving instance DecidableEq for Except

set_option maxRecDepth 100000

/-- A byte. -/
abbrev Byte := Fin 256

/-- A Go string or byte slice: a sequence of bytes. -/
abbrev Bytes := List Byte

/-- The bytes of an ASCII string literal. -/
def ascii (s : String) : Bytes := s.toList.map (fun c => Fin.ofNat c.toNat)

/-- Go's `strings.HasPrefix(s, prefix)`: `len(s) >= len(prefix) && s[:len(prefix)] == prefix`. -/
def HasPrefix (s pre : Bytes) : Bool :=
  decide (pre.length ≤ s.length) && decide (s.take pre.length = pre)

/-! ## `encoding/hex` -/

/-- The constant `hextable` of `encoding/hex`. -/
def hextable : Bytes := ascii "0123456789abcdef"

/-- The lookup `hextable[n]`, for a nibble `n`. -/
def hexDigit (n : Nat) : Byte := hextable.getD n 0

/-- Go's `hex.EncodeToString`: two lower-case digits per byte, `hextable[v>>4]`
then `hextable[v&0x0f]`. -/
def EncodeToString : Bytes → Bytes
  | [] => []
  | v :: rest => hexDigit (v.val / 16) :: hexDigit (v.val % 16) :: EncodeToString rest

/-- The table `reverseHexTable` of `encoding/hex`: the value of a hex digit of
either case, `0xff` for every other byte. -/
def reverseHexTable (c : Byte) : Nat :=
  if 48 ≤ c.val ∧ c.val ≤ 57 then c.val - 48
  else if 97 ≤ c.val ∧ c.val ≤ 102 then c.val - 97 + 10
  else if 65 ≤ c.val ∧ c.val ≤ 70 then c.val - 65 + 10
  else 0xff

/-- The errors of `encoding/hex`. -/
inductive HexError where
  | InvalidByteError (b : Byte)
  | ErrLength
  deriving DecidableEq, Repr

/-- Go's `hex.DecodeString`: returns the bytes decoded before the first
problem together with the error, if any (`return src[:n], err`).  An invalid
character is reported before an odd length. -/
def DecodeString : Bytes → Bytes × Option HexError
  | [] => ([], none)
  | [p] =>
    if reverseHexTable p > 0x0f then ([], some (.InvalidByteError p))
    else ([], some .ErrLength)
  | p :: q :: rest =>
    let a := reverseHexTable p
    let b := reverseHexTable q
    if a > 0x0f then ([], some (.InvalidByteError p))
    else if b > 0x0f then ([], some (.InvalidByteError q))
    else
      let r := DecodeString rest
      (Fin.ofNat (a * 16 + b) :: r.1, r.2)

/-- An upper-case hex digit `A`..`F`. -/
def isUpperHex (c : Byte) : Prop := 65 ≤ c.val ∧ c.val ≤ 70

instance (c : Byte) : Decidable (isUpperHex c) := by
  unfold isUpperHex; infer_instance

/-! ## The ABI argument unpacker (go-ethereum `accounts/abi`) -/

/-- Go's slice expression `xs[lo:hi]`, for bounds the caller has checked. -/
def slice (xs : Bytes) (lo hi : Nat) : Bytes := (xs.take hi).drop lo

/-- Go's `new(big.Int).SetBytes`: the big-endian value of a byte string. -/
def SetBytes (bs : Bytes) : Nat := bs.foldl (fun acc b => acc * 256 + b.val) 0

/-- The argument types of the `PeekerReverted` error. -/
inductive AbiType where
  | AddressTy
  | BytesTy
  deriving DecidableEq, Repr

/-- The dynamic values (`interface{}`) that move through the framework. -/
inductive Value where
  | address (a : Bytes)
  | bytes (b : Bytes)
  | uint (n : Nat)
  | str (s : Bytes)
  deriving DecidableEq, Repr

/-- The failures of the unpacker. -/
inductive AbiError where
  | emptyData
  | lengthInsufficient
  | offsetOverBoundary
  | offsetLargerThanInt64
  | lengthLargerThanInt64
  deriving DecidableEq, Repr

/-- `common.BytesToAddress`: the last 20 bytes of `b`, left-padded with zeros
when `b` is shorter. -/
def BytesToAddress (b : Bytes) : Bytes :=
  if b.length > 20 then b.drop (b.length - 20)
  else List.replicate (20 - b.length) 0 ++ b

/-- `lengthPrefixPointsTo(index, output)`: reads the offset word at `index`,
then the length word it points to, and returns where the content starts and
how long it is.  `BitLen() > 63` is `2^63 ≤ ·`. -/
def lengthPrefixPointsTo (index : Nat) (output : Bytes) : Except AbiError (Nat × Nat) :=
  let bigOffsetEnd := SetBytes (slice output index (index + 32)) + 32
  let outputLength := output.length
  if bigOffsetEnd > outputLength then .error .offsetOverBoundary
  else if 2 ^ 63 ≤ bigOffsetEnd then .error .offsetLargerThanInt64
  else
    let offsetEnd := bigOffsetEnd
    let lengthBig := SetBytes (slice output (offsetEnd - 32) offsetEnd)
    let totalSize := offsetEnd + lengthBig
    if 2 ^ 63 ≤ totalSize then .error .lengthLargerThanInt64
    else if totalSize > outputLength then .error .lengthInsufficient
    else .ok (bigOffsetEnd, lengthBig)

/-- `toGoType(index, t, output)` for the two types in use: `bytes` requires a
length prefix, `address` is read from the word at `index`. -/
def toGoType (index : Nat) (t : AbiType) (output : Bytes) : Except AbiError Value :=
  if index + 32 > output.length then .error .lengthInsufficient
  else
    match t with
    | .AddressTy => .ok (.address (BytesToAddress (slice output index (index + 32))))
    | .BytesTy =>
      match lengthPrefixPointsTo index output with
      | .error e => .error e
      | .ok (start, length) => .ok (.bytes (slice output start (start + length)))

/-- The loop of `Arguments.UnpackValues`, argument number `index` onwards (no
tuple-typed argument occurs, so `virtualArgs` stays 0). -/
def UnpackValuesFrom (index : Nat) : List AbiType → Bytes → Except AbiError (List Value)
  | [], _ => .ok []
  | t :: ts, data =>
    match toGoType (index * 32) t data with
    | .error e => .error e
    | .ok v =>
      match UnpackValuesFrom (index + 1) ts data with
      | .error e => .error e
      | .ok vs => .ok (v :: vs)

/-- `Arguments.Unpack(data)`. -/
def Unpack (arguments : List AbiType) (data : Bytes) : Except AbiError (List Value) :=
  if data.length = 0 then
    if arguments.length ≠ 0 then .error .emptyData else .ok []
  else UnpackValuesFrom 0 arguments data

/-- The inputs of `artifacts.SuaveAbi.Errors["PeekerReverted"]`:
`error PeekerReverted(address, bytes)`. -/
def PeekerRevertedInputs : List AbiType := [.AddressTy, .BytesTy]

/-! ## The contract ABI encoding of `(address, bytes)` -/

/-- The `k`-byte big-endian representation of `n` (its low `k` bytes). -/
def bigEndian : Nat → Nat → Bytes
  | 0, _ => []
  | k + 1, n => bigEndian k (n / 256) ++ [Fin.ofNat (n % 256)]

/-- The contract ABI encoding of the tuple `(address a, bytes p)`: the address
left-padded to a word, the offset `0x40` of the dynamic part, then the length
of `p` and `p` itself right-padded with zeros to a whole number of words. -/
def abiEncode (a p : Bytes) : Bytes :=
  List.replicate (32 - a.length) 0 ++ a
    ++ bigEndian 32 64
    ++ bigEndian 32 p.length
    ++ p ++ List.replicate ((32 - p.length % 32) % 32) 0

/-! ## Outcomes of a Go call -/

/-- An error value handed back by the node, the sdk, the file system or the
JSON decoder; `message` is what its `Error()` method returns. -/
structure RemoteError where
  message : Bytes
  deriving DecidableEq, Repr

/-- What a Go `panic` carries. -/
inductive Panic where
  /-- The statement `panic(err)` with an error received from a callee. -/
  | error (err : RemoteError)
  /-- The statement `panic(fmt.Sprintf(...))`: a string. -/
  | message (s : Bytes)
  /-- The statement `panic(fmt.Errorf(...))`: a fresh error with this text. -/
  | newError (s : Bytes)
  /-- Runtime fault: slice bounds out of range. -/
  | sliceBoundsOutOfRange
  /-- Runtime fault: index out of range. -/
  | indexOutOfRange
  deriving DecidableEq, Repr

/-- A Go call either returns or panics. -/
inductive Outcome (α : Type) where
  | returned (a : α)
  | panicked (p : Panic)
  deriving DecidableEq, Repr

/-- The library and node calls an operation performs, in order. -/
inductive Step where
  | submit
  | hexDecode
  | unpack
  | wait
  | send
  | balanceAt
  deriving DecidableEq, Repr

/-- The result of running an operation against the node: its outcome, the
calls it made and the world it left behind. -/
structure Run (σ α : Type) where
  result : α
  calls : List Step
  world : σ

/-! ## Data model -/

/-- The type `common.Address`: 20 bytes. -/
abbrev Address := Bytes

/-- The type `types.Log`. -/
structure Log where
  Address : Address
  Topics : List Bytes
  Data : Bytes
  deriving DecidableEq, Repr

/-- The type `types.Receipt`, the fields the framework and its driver read. -/
structure Receipt where
  Status : Nat
  Logs : List Log
  TxHash : Bytes
  ContractAddress : Address
  deriving DecidableEq, Repr

/-- The type `types.LegacyTx`, the fields `FundAccount` sets. -/
structure LegacyTx where
  Value : Int
  To : Address
  deriving DecidableEq, Repr

/-- The type `sdk.TransactionResult`: a submitted transaction, by hash. -/
structure TransactionResult where
  hash : Nat
  deriving DecidableEq, Repr

/-- The type `abi.ABI`, reduced to the names it declares. -/
structure ABI where
  Methods : List String
  deriving DecidableEq, Repr

/-- The type `PrivKey`; `Priv` is the key's scalar. -/
structure PrivKey where
  Priv : Bytes
  deriving DecidableEq, Repr

/-- The result of `rpc.Dial(url)`. -/
structure RpcClient where
  url : String
  deriving DecidableEq, Repr

/-- The type `sdk.Client` as `sdk.NewClient(rpc, key, kettleAddress)` builds it. -/
structure SdkClient where
  rpc : RpcClient
  key : Bytes
  kettleAddress : Address
  deriving DecidableEq, Repr

/-- The type `sdk.Contract` as `sdk.GetContract(addr, abi, client)` builds it. -/
structure SdkContract where
  addr : Address
  abi : Option ABI
  client : SdkClient
  deriving DecidableEq, Repr

/-- The function `sdk.GetContract`. -/
def GetContract (addr : Address) (abi : Option ABI) (client : SdkClient) : SdkContract :=
  { addr := addr, abi := abi, client := client }

/-- The method `sdk.Contract.Address`. -/
def SdkContract.Address (c : SdkContract) : Address := c.addr

/-- A reference (Go pointer), by identity. -/
abbrev Ptr := Nat

/-- The type `Contract`: the embedded `*sdk.Contract` (here `sdkContract`) and the fields `addr`,
`abi`, `fr`; `fr` is the reference to the owning `Framework`. -/
structure Contract where
  sdkContract : SdkContract
  addr : Address
  abi : Option ABI
  fr : Ptr
  deriving DecidableEq, Repr

/-- The method `Address`, promoted to `Contract` from the embedded `*sdk.Contract`. -/
def Contract.Address (c : Contract) : Address := c.sdkContract.Address

/-- The type `Config`. -/
structure Config where
  KettleRPC : String
  KettleAddr : Address
  FundedAccount : PrivKey
  deriving DecidableEq, Repr

/-- The function `DefaultConfig`. -/
def DefaultConfig : Config :=
  { KettleRPC := "https://rpc.rigil.suave.flashbots.net"
    KettleAddr := BytesToAddress (DecodeString (ascii "03493869959C866713C33669cA118E774A30A0E5")).1
    FundedAccount :=
      { Priv := (DecodeString
          (ascii "bab10e221a04567ca0445fb7570843ce36da5177bd8f33584f972d299fe74bfb")).1 } }

/-- The method `Framework.NewClient`: a client for `acct` on the default
network; the receiver is not read. -/
def NewClient (acct : PrivKey) : SdkClient :=
  let cc := DefaultConfig
  { rpc := { url := cc.KettleRPC }, key := acct.Priv, kettleAddress := cc.KettleAddr }

/-- The store of contract handles: a reference is an index into it. -/
abbrev Heap := List Contract

/-- The method `Contract.Ref`, on the handle at reference `c`: allocates a new
handle and returns its reference with the extended store; `none` when `c` is
not a live reference (nil receiver). -/
def Ref (heap : Heap) (c : Ptr) (acct : PrivKey) : Option (Ptr × Heap) :=
  match heap[c]? with
  | none => none
  | some h =>
    let cc : Contract :=
      { addr := h.addr
        abi := h.abi
        fr := h.fr
        sdkContract := GetContract h.addr h.abi (NewClient acct) }
    some (heap.length, heap ++ [cc])

/-- The handle `Ref` allocates for the handle `h` and the identity `acct`. -/
def reboundContract (h : Contract) (acct : PrivKey) : Contract :=
  { addr := h.addr
    abi := h.abi
    fr := h.fr
    sdkContract := GetContract h.addr h.abi (NewClient acct) }

/-- The handle `DeployContract` builds from the receipt of the deployment,
the artifact's ABI and the framework `f` with its client `clt`. -/
def deployedContract (receiptContractAddress : Address) (artifactAbi : Option ABI)
    (f : Ptr) (clt : SdkClient) : Contract :=
  { addr := receiptContractAddress
    fr := f
    abi := artifactAbi
    sdkContract := GetContract receiptContractAddress artifactAbi clt }

/-- Repeated `Ref` calls on the same handle `c`, one per identity, as the
driver's deployment loop issues them; returns the references obtained. -/
def RefAll (heap : Heap) (c : Ptr) : List PrivKey → Option (List Ptr × Heap)
  | [] => some ([], heap)
  | acct :: rest =>
    match Ref heap c acct with
    | none => none
    | some (p, heap1) =>
      match RefAll heap1 c rest with
      | none => none
      | some (ps, heap2) => some (p :: ps, heap2)

/-! ## The node, as the sdk exposes it -/

/-- The remote operations the framework calls, over a world state `σ`. Each
takes the world before the call and returns the Go result pair (a value or an
error) with the world after it. -/
structure Sdk (σ : Type) where
  /-- The method `sdk.Contract.SendTransaction(method, args, confidentialBytes)`. -/
  ContractSendTransaction :
    SdkContract → String → List Value → Bytes → σ → Except RemoteError TransactionResult × σ
  /-- The method `sdk.Client.SendTransaction(txn)`. -/
  SendTransaction : LegacyTx → σ → Except RemoteError TransactionResult × σ
  /-- The method `sdk.TransactionResult.Wait()`. -/
  Wait : TransactionResult → σ → Except RemoteError Receipt × σ
  /-- The call `clt.RPC().BalanceAt(ctx, to, nil)`. -/
  BalanceAt : Address → σ → Except RemoteError Int × σ

/-! ## `Contract.SendTransaction` -/

/-- The variable `executionRevertedPrefix`. -/
def executionRevertedPrefix : Bytes := ascii "execution reverted: 0x"

/-- The comma-ok assertion `v.(common.Address)`: the zero address when `v` is
of another type. -/
def Value.asAddress : Value → Address
  | .address a => a
  | _ => List.replicate 20 0

/-- The comma-ok assertion `v.([]byte)`: nil when `v` is of another type. -/
def Value.asBytes : Value → Bytes
  | .bytes b => b
  | _ => []

/-- The call `fmt.Sprintf("peeker 0x%x reverted: %s", addr, eventErr)`: `%x` on
a `common.Address` writes its lower-case hex without prefix, `%s` on a byte
slice writes the bytes. -/
def peekerMessage (addr : Address) (eventErr : Bytes) : Bytes :=
  ascii "peeker 0x" ++ EncodeToString addr ++ ascii " reverted: " ++ eventErr

/-- The method `Contract.SendTransaction`. The errors of `hex.DecodeString` and
of `Unpack` are discarded as in the source (`_`), so a failed `Unpack` leaves
`unpacked` nil. -/
def SendTransaction {σ : Type} (sdk : Sdk σ) (c : Contract) (method : String)
    (args : List Value) (confidentialBytes : Bytes) (w : σ) : Run σ (Outcome Receipt) :=
  match sdk.ContractSendTransaction c.sdkContract method args confidentialBytes w with
  | (.error err, w1) =>
    let errMsg := err.message
    if HasPrefix errMsg executionRevertedPrefix then
      let errMsg := errMsg.drop executionRevertedPrefix.length
      let errMsgBytes := (DecodeString errMsg).1
      if errMsgBytes.length < 4 then
        ⟨.panicked .sliceBoundsOutOfRange, [.submit, .hexDecode], w1⟩
      else
        let unpacked : List Value :=
          match Unpack PeekerRevertedInputs (errMsgBytes.drop 4) with
          | .ok vs => vs
          | .error _ => []
        match unpacked[0]? with
        | none => ⟨.panicked .indexOutOfRange, [.submit, .hexDecode, .unpack], w1⟩
        | some v0 =>
          let addr := v0.asAddress
          match unpacked[1]? with
          | none => ⟨.panicked .indexOutOfRange, [.submit, .hexDecode, .unpack], w1⟩
          | some v1 =>
            let eventErr := v1.asBytes
            ⟨.panicked (.message (peekerMessage addr eventErr)),
              [.submit, .hexDecode, .unpack], w1⟩
    else ⟨.panicked (.error err), [.submit], w1⟩
  | (.ok txnResult, w1) =>
    match sdk.Wait txnResult w1 with
    | (.error err, w2) => ⟨.panicked (.error err), [.submit, .wait], w2⟩
    | (.ok receipt, w2) =>
      if receipt.Status = 0 then
        ⟨.panicked (.newError (ascii "status not correct")), [.submit, .wait], w2⟩
      else ⟨.returned receipt, [.submit, .wait], w2⟩

/-! ## `Framework.FundAccount` -/

/-- A Go `error` returned by `FundAccount`: the package variable
`errFundAccount`, or an error received from the sdk.  `errFundAccount` is a
distinct allocation private to the package, so no callee can return it. -/
inductive FundError where
  | errFundAccount
  | remote (err : RemoteError)
  deriving DecidableEq, Repr

/-- The method `Framework.FundAccount` (`toAddr` is the parameter `to`); `none`
is the nil error. -/
def FundAccount {σ : Type} (sdk : Sdk σ) (toAddr : Address) (value : Int) (w : σ) :
    Run σ (Option FundError) :=
  let txn : LegacyTx := { Value := value, To := toAddr }
  match sdk.SendTransaction txn w with
  | (.error err, w1) => ⟨some (.remote err), [.send], w1⟩
  | (.ok result, w1) =>
    match sdk.Wait result w1 with
    | (.error err, w2) => ⟨some (.remote err), [.send, .wait], w2⟩
    | (.ok _, w2) =>
      match sdk.BalanceAt toAddr w2 with
      | (.error err, w3) => ⟨some (.remote err), [.send, .wait, .balanceAt], w3⟩
      | (.ok balance, w3) =>
        if balance ≠ value then ⟨some .errFundAccount, [.send, .wait, .balanceAt], w3⟩
        else ⟨none, [.send, .wait, .balanceAt], w3⟩

/-! ## `ReadArtifact` -/

/-- The type `Artifact`. -/
structure Artifact where
  Abi : Option ABI
  Code : Bytes
  deriving DecidableEq, Repr

/-- The field `bytecode` of the artifact document. -/
structure BytecodeJSON where
  Object : Bytes
  deriving DecidableEq, Repr

/-- The anonymous struct `ReadArtifact` unmarshals the document into. -/
structure ArtifactJSON where
  Abi : Option ABI
  Bytecode : BytecodeJSON
  deriving DecidableEq, Repr

/-- The errors `ReadArtifact` returns. -/
inductive ArtifactError where
  /-- The error `unable to get the current filename`. -/
  | noCaller
  /-- The error of `os.ReadFile`. -/
  | readFile (err : RemoteError)
  /-- The error of `json.Unmarshal`. -/
  | unmarshal (err : RemoteError)
  /-- The error of `hex.DecodeString`. -/
  | hex (err : HexError)
  deriving DecidableEq, Repr

/-- What `ReadArtifact` reads from its surroundings: whether `runtime.Caller(0)`
succeeds, `os.ReadFile` on the file `../out/<path>` next to the package, and
`json.Unmarshal` into the anonymous struct. -/
structure Host where
  callerOk : Bool
  ReadFile : String → Except RemoteError Bytes
  Unmarshal : Bytes → Except RemoteError ArtifactJSON

/-- The function `ReadArtifact`. The slice expression `Object[2:]` faults when
`Object` has fewer than two bytes. -/
def ReadArtifact (host : Host) (path : String) : Outcome (Except ArtifactError Artifact) :=
  if !host.callerOk then .returned (.error .noCaller)
  else
    match host.ReadFile path with
    | .error err => .returned (.error (.readFile err))
    | .ok data =>
      match host.Unmarshal data with
      | .error err => .returned (.error (.unmarshal err))
      | .ok artifact =>
        if artifact.Bytecode.Object.length < 2 then .panicked .sliceBoundsOutOfRange
        else
          match DecodeString (artifact.Bytecode.Object.drop 2) with
          | (_, some err) => .returned (.error (.hex err))
          | (code, none) => .returned (.ok { Abi := artifact.Abi, Code := code })

/-! ## Concrete nodes -/

/-- A node that answers every call from a fixed script; its world counts the
calls it has served. -/
def scriptedSdk (submit : Except RemoteError TransactionResult)
    (wait : Except RemoteError Receipt) (balance : Except RemoteError Int) : Sdk Nat :=
  { ContractSendTransaction := fun _ _ _ _ n => (submit, n + 1)
    SendTransaction := fun _ n => (submit, n + 1)
    Wait := fun _ n => (wait, n + 1)
    BalanceAt := fun _ n => (balance, n + 1) }

/-- The ledger model: the balance of every account and the transactions
submitted so far (a transaction's hash is its position). -/
structure Ledger where
  balance : Address → Int
  pool : List LegacyTx

/-- The receipt of a mined value transfer. -/
def transferReceipt (hash : Nat) : Receipt :=
  { Status := 1, Logs := [], TxHash := bigEndian 32 hash, ContractAddress := List.replicate 20 0 }

/-- A node over the ledger model. Submission is refused when `accept` gives an
error, mining fails when `mine` does; a mined value transfer adds its amount to
the recipient's balance and nothing else touches a balance. -/
def ledgerSdk (accept mine : LegacyTx → Option RemoteError) : Sdk Ledger :=
  { ContractSendTransaction := fun _ _ _ _ w =>
      (.error { message := ascii "no contract code" }, w)
    SendTransaction := fun txn w =>
      match accept txn with
      | some err => (.error err, w)
      | none => (.ok { hash := w.pool.length }, { w with pool := w.pool ++ [txn] })
    Wait := fun result w =>
      match w.pool[result.hash]? with
      | none => (.error { message := ascii "not found" }, w)
      | some txn =>
        match mine txn with
        | some err => (.error err, w)
        | none =>
          (.ok (transferReceipt result.hash),
            { w with balance := fun a => if a = txn.To then w.balance a + txn.Value else w.balance a })
    BalanceAt := fun a w => (.ok (w.balance a), w) }

/-- A host whose artifact file has the given content, which `json.Unmarshal`
decodes into `doc`. -/
def hostOf (content : Bytes) (doc : ArtifactJSON) : Host :=
  { callerOk := true
    ReadFile := fun _ => .ok content
    Unmarshal := fun data =>
      if data = content then .ok doc else .error { message := ascii "invalid character" } }

/-- A handle as `DeployContract` builds it, for the default funded account. -/
def sampleContract : Contract :=
  deployedContract (List.replicate 20 0x77) (some { Methods := ["scrt"] }) 0
    (NewClient DefaultConfig.FundedAccount)

/-- A handle built outside the package from the exported embedded field alone,
`&framework.Contract{Contract: x}` with `x` an sdk contract on the address
`7777..77`: the unexported fields `addr`, `abi`, `fr` keep their zero values. -/
def foreignContract : Contract :=
  { sdkContract := GetContract (List.replicate 20 0x77) (some { Methods := ["scrt"] })
      (NewClient DefaultConfig.FundedAccount)
    addr := List.replicate 20 0
    abi := none
    fr := 0 }

/-- A revert message of the node: selector `01020304`, peeker `0xabab..ab`,
payload `no`. -/
def sampleRevert : RemoteError :=
  { message := ascii "execution reverted: 0x"
      ++ EncodeToString ([1, 2, 3, 4] ++ abiEncode (List.replicate 20 0xab) (ascii "no")) }

/-- A receipt with success status and one log. -/
def sampleReceipt : Receipt :=
  { Status := 1
    Logs := [{ Address := List.replicate 20 0x77, Topics := [], Data := [1] }]
    TxHash := bigEndian 32 7
    ContractAddress := List.replicate 20 0 }

/-! ## Lemmas on `encoding/hex` -/

theorem reverseHexTable_hexDigit : ∀ n, n < 16 → reverseHexTable (hexDigit n) = n := by
  decide

theorem hexDigit_reverseHexTable :
    ∀ c : Byte, reverseHexTable c ≤ 0x0f → ¬ isUpperHex c → hexDigit (reverseHexTable c) = c := by
  decide

theorem reverseHexTable_le_or : ∀ c : Byte, reverseHexTable c ≤ 0x0f ∨ reverseHexTable c = 0xff := by
  decide

theorem ofNat_nibbles (v : Byte) : (Fin.ofNat (v.val / 16 * 16 + v.val % 16) : Byte) = v := by
  apply Fin.ext
  have h := v.isLt
  simp only [Fin.ofNat, Fin.val_mk]
  omega

theorem DecodeString_EncodeToString (bs : Bytes) :
    DecodeString (EncodeToString bs) = (bs, none) := by
  induction bs with
  | nil => rfl
  | cons v rest ih =>
    have h1 : v.val / 16 < 16 := by have := v.isLt; omega
    have h2 : v.val % 16 < 16 := by omega
    simp only [EncodeToString, DecodeString, reverseHexTable_hexDigit _ h1,
      reverseHexTable_hexDigit _ h2, ih, ofNat_nibbles]
    have h3 : ¬ (v.val / 16 > 0x0f) := by omega
    have h4 : ¬ (v.val % 16 > 0x0f) := by omega
    simp [h3, h4]

theorem EncodeToString_length (bs : Bytes) : (EncodeToString bs).length = 2 * bs.length := by
  induction bs with
  | nil => rfl
  | cons v rest ih => simp only [EncodeToString, List.length_cons, ih]; omega

theorem EncodeToString_of_DecodeString (h : Bytes) :
    ∀ bs, DecodeString h = (bs, none) → (∀ c ∈ h, ¬ isUpperHex c) → EncodeToString bs = h := by
  induction h using DecodeString.induct with
  | case1 => intro bs hd _; simp [DecodeString] at hd; subst hd; rfl
  | case2 p hp => intro bs hd _; simp [DecodeString, hp] at hd
  | case3 p hp => intro bs hd _; simp [DecodeString, hp] at hd
  | case4 p q rest a ha => intro bs hd _; simp [DecodeString, a, ha] at hd
  | case5 p q rest a b ha hb => intro bs hd _; simp [DecodeString, a, b, ha, hb] at hd
  | case6 p q rest a b ha hb ih =>
    intro bs hd hup
    simp only [DecodeString] at hd
    rw [if_neg ha, if_neg hb] at hd
    simp only [Prod.mk.injEq] at hd
    obtain ⟨hbs, hnone⟩ := hd
    have hrest : EncodeToString (DecodeString rest).1 = rest :=
      ih _ (Prod.ext rfl hnone) (fun c hc => hup c (by simp [hc]))
    have hpa : reverseHexTable p ≤ 0x0f := by omega
    have hqb : reverseHexTable q ≤ 0x0f := by omega
    have hp := hexDigit_reverseHexTable p hpa (hup p (by simp))
    have hq := hexDigit_reverseHexTable q hqb (hup q (by simp))
    subst hbs
    have hv : ((Fin.ofNat (reverseHexTable p * 16 + reverseHexTable q) : Byte)).val
        = reverseHexTable p * 16 + reverseHexTable q := by
      simp only [Fin.ofNat, Fin.val_mk]; omega
    have h1 : (reverseHexTable p * 16 + reverseHexTable q) / 16 = reverseHexTable p := by omega
    have h2 : (reverseHexTable p * 16 + reverseHexTable q) % 16 = reverseHexTable q := by omega
    simp only [EncodeToString, hv, h1, h2, hp, hq, hrest]

theorem DecodeString_ne_nil (h : Bytes) (code : Bytes) (hd : DecodeString h = (code, none))
    (hne : h ≠ []) : code ≠ [] := by
  match h, hd, hne with
  | [p], hd, _ =>
    simp only [DecodeString] at hd
    split at hd <;> simp at hd
  | p :: q :: rest, hd, _ =>
    simp only [DecodeString] at hd
    split at hd
    · simp at hd
    · split at hd
      · simp at hd
      · simp only [Prod.mk.injEq] at hd
        rw [← hd.1]; simp

/-! ## Lemmas on the ABI encoding -/

theorem slice_append_mid (A B C : Bytes) (lo hi : Nat) (hlo : lo = A.length)
    (hhi : hi = lo + B.length) : slice (A ++ B ++ C) lo hi = B := by
  subst hlo hhi
  unfold slice
  rw [List.take_append_of_le_length (by simp), List.take_of_length_le (by simp)]
  simp

theorem SetBytes_append_singleton (xs : Bytes) (b : Byte) :
    SetBytes (xs ++ [b]) = SetBytes xs * 256 + b.val := by
  simp [SetBytes, List.foldl_append]

theorem bigEndian_length (k n : Nat) : (bigEndian k n).length = k := by
  induction k generalizing n with
  | zero => rfl
  | succ k ih => simp [bigEndian, ih]

theorem SetBytes_bigEndian (k n : Nat) : SetBytes (bigEndian k n) = n % 256 ^ k := by
  induction k generalizing n with
  | zero => simp [bigEndian, SetBytes, Nat.mod_one]
  | succ k ih =>
    have hv : ((Fin.ofNat (n % 256) : Byte)).val = n % 256 := by
      simp only [Fin.ofNat, Fin.val_mk]; omega
    rw [bigEndian, SetBytes_append_singleton, ih, hv, pow_succ', Nat.mod_mul]
    ring

theorem abiEncode_length (a p : Bytes) (ha : a.length = 20) :
    (abiEncode a p).length = 96 + p.length + (32 - p.length % 32) % 32 := by
  simp [abiEncode, bigEndian_length, ha]
  omega

theorem Unpack_abiEncode (a p : Bytes) (ha : a.length = 20)
    (hlen : (abiEncode a p).length < 2 ^ 63) :
    Unpack PeekerRevertedInputs (abiEncode a p) = .ok [.address a, .bytes p] := by
  have hL := abiEncode_length a p ha
  have hp : p.length < 2 ^ 63 := by omega
  -- the four parts of the encoding
  have hw0 : slice (abiEncode a p) 0 32 = List.replicate 12 0 ++ a := by
    have := slice_append_mid [] (List.replicate 12 0 ++ a)
      (bigEndian 32 64 ++ bigEndian 32 p.length ++ p
        ++ List.replicate ((32 - p.length % 32) % 32) 0) 0 32 rfl (by simp [ha])
    simpa [abiEncode, ha, List.append_assoc] using this
  have hw1 : slice (abiEncode a p) 32 64 = bigEndian 32 64 := by
    have := slice_append_mid (List.replicate 12 0 ++ a) (bigEndian 32 64)
      (bigEndian 32 p.length ++ p ++ List.replicate ((32 - p.length % 32) % 32) 0) 32 64
      (by simp [ha]) (by simp [bigEndian_length])
    simpa [abiEncode, ha, List.append_assoc] using this
  have hw2 : slice (abiEncode a p) 64 96 = bigEndian 32 p.length := by
    have := slice_append_mid (List.replicate 12 0 ++ a ++ bigEndian 32 64)
      (bigEndian 32 p.length) (p ++ List.replicate ((32 - p.length % 32) % 32) 0) 64 96
      (by simp [ha, bigEndian_length]) (by simp [bigEndian_length])
    simpa [abiEncode, ha, List.append_assoc] using this
  have hw3 : slice (abiEncode a p) 96 (96 + p.length) = p := by
    have := slice_append_mid
      (List.replicate 12 0 ++ a ++ bigEndian 32 64 ++ bigEndian 32 p.length) p
      (List.replicate ((32 - p.length % 32) % 32) 0) 96 (96 + p.length)
      (by simp [ha, bigEndian_length]) rfl
    simpa [abiEncode, ha, List.append_assoc] using this
  have hoff : SetBytes (bigEndian 32 64) = 64 := by
    rw [SetBytes_bigEndian]; norm_num
  have hlenw : SetBytes (bigEndian 32 p.length) = p.length := by
    rw [SetBytes_bigEndian]
    apply Nat.mod_eq_of_lt
    calc p.length < 2 ^ 63 := hp
      _ ≤ 256 ^ 32 := by norm_num
  have haddr : BytesToAddress (List.replicate 12 0 ++ a) = a := by
    simp [BytesToAddress, ha]
  have hne : ¬ (abiEncode a p).length = 0 := by omega
  have h0 : ¬ (0 * 32 + 32 > (abiEncode a p).length) := by omega
  have h1 : ¬ ((0 + 1) * 32 + 32 > (abiEncode a p).length) := by omega
  have hpre : lengthPrefixPointsTo 32 (abiEncode a p) = .ok (96, p.length) := by
    unfold lengthPrefixPointsTo
    simp only [hw1, hoff, show 64 + 32 - 32 = 64 from rfl, show 64 + 32 = 96 from rfl,
      hw2, hlenw]
    have c1 : ¬ (96 > (abiEncode a p).length) := by omega
    have c2 : ¬ (2 ^ 63 ≤ 96) := by norm_num
    have c3 : ¬ (2 ^ 63 ≤ 96 + p.length) := by omega
    have c4 : ¬ (96 + p.length > (abiEncode a p).length) := by omega
    simp only [c1, c2, c3, c4, if_false]
  simp only [Unpack, PeekerRevertedInputs, hne, if_false, UnpackValuesFrom, toGoType, h0, h1,
    show 0 * 32 = 0 from rfl, show (0 + 1) * 32 = 32 from rfl, show 0 + 32 = 32 from rfl,
    show 32 + 32 = 64 from rfl, hw0, haddr, hpre, hw3]

/-! ## `Contract.SendTransaction`: properties -/

theorem HasPrefix_append (pre x : Bytes) : HasPrefix (pre ++ x) pre = true := by
  simp [HasPrefix]

/-- C1: when the submission fails with the message `execution reverted: 0x`
followed by the hex encoding of a 4-byte selector `s` and the ABI encoding of
`(address a, bytes p)`, `SendTransaction` panics with the string
`peeker 0x<lower-case hex of a> reverted: <p>`, whatever `s` is, and never
waits for a receipt: the only node call is the submission, and the world is
the one the submission left. -/
theorem SendTransaction_peeker_reverted {σ : Type} (sdk : Sdk σ) (c : Contract)
    (method : String) (args : List Value) (confidentialBytes : Bytes) (w w1 : σ)
    (err : RemoteError) (s a p : Bytes)
    (hs : s.length = 4) (ha : a.length = 20)
    (hgo : err.message.length < 2 ^ 63)
    (hsend : sdk.ContractSendTransaction c.sdkContract method args confidentialBytes w
      = (.error err, w1))
    (hmsg : err.message
      = ascii "execution reverted: 0x" ++ EncodeToString (s ++ abiEncode a p)) :
    (SendTransaction sdk c method args confidentialBytes w).result
        = .panicked (.message (ascii "peeker 0x" ++ EncodeToString a ++ ascii " reverted: " ++ p))
      ∧ Step.wait ∉ (SendTransaction sdk c method args confidentialBytes w).calls
      ∧ (SendTransaction sdk c method args confidentialBytes w).world = w1 := by
  have hpre : HasPrefix err.message executionRevertedPrefix = true := by
    rw [hmsg]; exact HasPrefix_append _ _
  have hdrop : err.message.drop executionRevertedPrefix.length
      = EncodeToString (s ++ abiEncode a p) := by
    rw [hmsg]; exact List.drop_left _ _
  have hlenEnc : (abiEncode a p).length < 2 ^ 63 := by
    have h1 : err.message.length
        = (ascii "execution reverted: 0x").length + 2 * (s.length + (abiEncode a p).length) := by
      rw [hmsg, List.length_append, EncodeToString_length, List.length_append]
    omega
  have hdec : (DecodeString (EncodeToString (s ++ abiEncode a p))).1 = s ++ abiEncode a p := by
    rw [DecodeString_EncodeToString]
  have hge : ¬ ((s ++ abiEncode a p).length < 4) := by
    rw [List.length_append]; omega
  have hdrop4 : (s ++ abiEncode a p).drop 4 = abiEncode a p := by
    rw [← hs]; exact List.drop_left _ _
  simp only [SendTransaction, hsend, hpre, if_true, hdrop, hdec, hge, if_false, hdrop4,
    Unpack_abiEncode a p ha hlenEnc, List.getElem?_cons_zero, List.getElem?_cons_succ,
    Value.asAddress, Value.asBytes, peekerMessage]
  simp

/-- C3: when the submission succeeds and `Wait` yields a receipt,
`SendTransaction` panics with the error `status not correct` if the receipt's
status is 0 and otherwise returns exactly that receipt, logs included; hence
every receipt it returns has a non-zero status. -/
theorem SendTransaction_receipt_status {σ : Type} (sdk : Sdk σ) (c : Contract)
    (method : String) (args : List Value) (confidentialBytes : Bytes) (w : σ) :
    (∀ (txnResult : TransactionResult) (w1 : σ) (receipt : Receipt) (w2 : σ),
        sdk.ContractSendTransaction c.sdkContract method args confidentialBytes w
          = (.ok txnResult, w1) →
        sdk.Wait txnResult w1 = (.ok receipt, w2) →
        (receipt.Status = 0 →
          (SendTransaction sdk c method args confidentialBytes w).result
            = .panicked (.newError (ascii "status not correct")))
        ∧ (receipt.Status ≠ 0 →
          (SendTransaction sdk c method args confidentialBytes w).result = .returned receipt))
      ∧ ∀ receipt : Receipt,
        (SendTransaction sdk c method args confidentialBytes w).result = .returned receipt →
        receipt.Status ≠ 0 := by
  refine ⟨?_, ?_⟩
  · intro txnResult w1 receipt w2 hsend hwait
    constructor
    · intro h0
      simp only [SendTransaction, hsend, hwait, h0, if_true]
    · intro h0
      simp only [SendTransaction, hsend, hwait, h0, if_false]
  · intro receipt hres
    unfold SendTransaction at hres
    split at hres
    · -- the submission failed: every branch panics
      simp only at hres
      split at hres
      · split at hres
        · simp at hres
        · split at hres
          · simp at hres
          · split at hres <;> simp at hres
      · simp at hres
    · split at hres
      · simp at hres
      · split at hres
        · simp at hres
        · rename_i hstatus
          simp only [Outcome.returned.injEq] at hres
          rw [← hres]; exact hstatus

/-- C4: when the submission fails with a message that does not start with
`execution reverted: 0x`, `SendTransaction` panics with that same error value;
it performs no hex decoding and no unpacking and never waits: the only call is
the submission, and the world is the one the submission left. -/
theorem SendTransaction_other_error {σ : Type} (sdk : Sdk σ) (c : Contract)
    (method : String) (args : List Value) (confidentialBytes : Bytes) (w w1 : σ)
    (err : RemoteError)
    (hsend : sdk.ContractSendTransaction c.sdkContract method args confidentialBytes w
      = (.error err, w1))
    (hmsg : HasPrefix err.message (ascii "execution reverted: 0x") = false) :
    (SendTransaction sdk c method args confidentialBytes w).result = .panicked (.error err)
      ∧ (SendTransaction sdk c method args confidentialBytes w).calls = [.submit]
      ∧ (SendTransaction sdk c method args confidentialBytes w).world = w1 := by
  have hpre : HasPrefix err.message executionRevertedPrefix = false := hmsg
  simp [SendTransaction, hsend, hpre]

/-- Witness for C1: the sample revert message is decoded into the peeker
`abab..ab` and the payload `no`. -/
theorem SendTransaction_peeker_reverted_witness :
    (SendTransaction (scriptedSdk (.error sampleRevert) (.ok sampleReceipt) (.ok 0))
        sampleContract "scrt" [.str (ascii "test")] [] 0).result
        = .panicked (.message
            (ascii "peeker 0x" ++ EncodeToString (List.replicate 20 0xab)
              ++ ascii " reverted: " ++ ascii "no"))
      ∧ Step.wait ∉ (SendTransaction (scriptedSdk (.error sampleRevert) (.ok sampleReceipt) (.ok 0))
        sampleContract "scrt" [.str (ascii "test")] [] 0).calls
      ∧ (SendTransaction (scriptedSdk (.error sampleRevert) (.ok sampleReceipt) (.ok 0))
        sampleContract "scrt" [.str (ascii "test")] [] 0).world = 1 :=
  SendTransaction_peeker_reverted
    (scriptedSdk (.error sampleRevert) (.ok sampleReceipt) (.ok 0))
    sampleContract "scrt" [.str (ascii "test")] [] 0 1 sampleRevert
    [1, 2, 3, 4] (List.replicate 20 0xab) (ascii "no")
    (by decide) (by decide) (by decide) rfl rfl

/-- C2 (the code at a malformed revert message): when the submission fails
with `execution reverted: 0x` followed by `rest`, `SendTransaction` never falls
back to `panic(err)`. If `rest` decodes to fewer than 4 bytes (as when it is
empty), the slice expression `errMsgBytes[4:]` faults with slice bounds out of
range; if the bytes after the selector do not unpack as `(address, bytes)`,
the index expression `unpacked[0]` faults with index out of range. -/
theorem SendTransaction_malformed_revert_faults {σ : Type} (sdk : Sdk σ) (c : Contract)
    (method : String) (args : List Value) (confidentialBytes : Bytes) (w w1 : σ)
    (err : RemoteError) (rest : Bytes)
    (hsend : sdk.ContractSendTransaction c.sdkContract method args confidentialBytes w
      = (.error err, w1))
    (hmsg : err.message = ascii "execution reverted: 0x" ++ rest) :
    ((DecodeString rest).1.length < 4 →
        (SendTransaction sdk c method args confidentialBytes w).result
          = .panicked .sliceBoundsOutOfRange)
      ∧ (4 ≤ (DecodeString rest).1.length →
        (∀ e, Unpack PeekerRevertedInputs ((DecodeString rest).1.drop 4) = .error e →
          (SendTransaction sdk c method args confidentialBytes w).result
            = .panicked .indexOutOfRange))
      ∧ (SendTransaction sdk c method args confidentialBytes w).result
        ≠ .panicked (.error err) := by
  have hpre : HasPrefix err.message executionRevertedPrefix = true := by
    rw [hmsg]; exact HasPrefix_append _ _
  have hdrop : err.message.drop executionRevertedPrefix.length = rest := by
    rw [hmsg]; exact List.drop_left _ _
  refine ⟨?_, ?_, ?_⟩
  · intro hshort
    simp only [SendTransaction, hsend, hpre, if_true, hdrop, hshort]
  · intro hlong e hun
    have hge : ¬ ((DecodeString rest).1.length < 4) := by omega
    simp only [SendTransaction, hsend, hpre, if_true, hdrop, hge, if_false, hun]
    simp
  · simp only [SendTransaction, hsend, hpre, if_true, hdrop]
    split
    · simp
    · split
      · simp
      · split <;> simp

/-- Witness for C2: a node answering `execution reverted: 0x`. -/
theorem SendTransaction_malformed_revert_faults_witness :
    (SendTransaction
        (scriptedSdk (.error { message := ascii "execution reverted: 0x" }) (.ok sampleReceipt) (.ok 0))
        sampleContract "scrt" [] [] 0).result = .panicked .sliceBoundsOutOfRange :=
  (SendTransaction_malformed_revert_faults
    (scriptedSdk (.error { message := ascii "execution reverted: 0x" }) (.ok sampleReceipt) (.ok 0))
    sampleContract "scrt" [] [] 0 1 { message := ascii "execution reverted: 0x" } [] rfl rfl).1
    (by decide)

/-- Witness for C3: the sample receipt (status 1, one log) is returned as is. -/
theorem SendTransaction_receipt_status_witness :
    (SendTransaction (scriptedSdk (.ok { hash := 7 }) (.ok sampleReceipt) (.ok 0))
        sampleContract "scrt" [] [] 0).result = .returned sampleReceipt :=
  ((SendTransaction_receipt_status (scriptedSdk (.ok { hash := 7 }) (.ok sampleReceipt) (.ok 0))
    sampleContract "scrt" [] [] 0).1 { hash := 7 } 1 sampleReceipt 2 rfl rfl).2 (by decide)

/-- Witness for C4: a transport error is passed on unchanged. -/
theorem SendTransaction_other_error_witness :
    (SendTransaction
        (scriptedSdk (.error { message := ascii "connection refused" }) (.ok sampleReceipt) (.ok 0))
        sampleContract "scrt" [] [] 0).result
        = .panicked (.error { message := ascii "connection refused" })
      ∧ (SendTransaction
        (scriptedSdk (.error { message := ascii "connection refused" }) (.ok sampleReceipt) (.ok 0))
        sampleContract "scrt" [] [] 0).calls = [.submit]
      ∧ (SendTransaction
        (scriptedSdk (.error { message := ascii "connection refused" }) (.ok sampleReceipt) (.ok 0))
        sampleContract "scrt" [] [] 0).world = 1 :=
  SendTransaction_other_error
    (scriptedSdk (.error { message := ascii "connection refused" }) (.ok sampleReceipt) (.ok 0))
    sampleContract "scrt" [] [] 0 1 { message := ascii "connection refused" } rfl (by decide)

/-! ## `Framework.FundAccount`: properties -/

/-- C5: `FundAccount` returns `errFundAccount` exactly when the submission,
the wait and the balance query all succeed and the reported balance differs
from the amount; it returns nil exactly when all three succeed and the balance
equals the amount; and when one of the three steps fails it returns that
step's error unchanged, having performed no later step. -/
theorem FundAccount_result {σ : Type} (sdk : Sdk σ) (toAddr : Address) (value : Int) (w : σ) :
    ((FundAccount sdk toAddr value w).result = some .errFundAccount ↔
        ∃ result w1 receipt w2 balance w3,
          sdk.SendTransaction { Value := value, To := toAddr } w = (.ok result, w1)
          ∧ sdk.Wait result w1 = (.ok receipt, w2)
          ∧ sdk.BalanceAt toAddr w2 = (.ok balance, w3)
          ∧ balance ≠ value)
      ∧ ((FundAccount sdk toAddr value w).result = none ↔
        ∃ result w1 receipt w2 balance w3,
          sdk.SendTransaction { Value := value, To := toAddr } w = (.ok result, w1)
          ∧ sdk.Wait result w1 = (.ok receipt, w2)
          ∧ sdk.BalanceAt toAddr w2 = (.ok balance, w3)
          ∧ balance = value)
      ∧ (∀ err w1,
          sdk.SendTransaction { Value := value, To := toAddr } w = (.error err, w1) →
          (FundAccount sdk toAddr value w).result = some (.remote err)
          ∧ (FundAccount sdk toAddr value w).calls = [.send]
          ∧ (FundAccount sdk toAddr value w).world = w1)
      ∧ (∀ result w1 err w2,
          sdk.SendTransaction { Value := value, To := toAddr } w = (.ok result, w1) →
          sdk.Wait result w1 = (.error err, w2) →
          (FundAccount sdk toAddr value w).result = some (.remote err)
          ∧ (FundAccount sdk toAddr value w).calls = [.send, .wait]
          ∧ (FundAccount sdk toAddr value w).world = w2)
      ∧ (∀ result w1 receipt w2 err w3,
          sdk.SendTransaction { Value := value, To := toAddr } w = (.ok result, w1) →
          sdk.Wait result w1 = (.ok receipt, w2) →
          sdk.BalanceAt toAddr w2 = (.error err, w3) →
          (FundAccount sdk toAddr value w).result = some (.remote err)
          ∧ (FundAccount sdk toAddr value w).calls = [.send, .wait, .balanceAt]
          ∧ (FundAccount sdk toAddr value w).world = w3) := by
  unfold FundAccount
  rcases hs : sdk.SendTransaction { Value := value, To := toAddr } w with ⟨rs, w1⟩
  cases rs with
  | error e => simp [hs]
  | ok result =>
    rcases hw : sdk.Wait result w1 with ⟨rw, w2⟩
    cases rw with
    | error e =>
      simp only [hs, hw]
      refine ⟨⟨fun h => by simp at h, ?_⟩, ⟨fun h => by simp at h, ?_⟩, ?_, ?_, ?_⟩
      · rintro ⟨r, v1, rc, v2, b, v3, h1, h2, -, -⟩
        cases h1; rw [hw] at h2; cases h2
      · rintro ⟨r, v1, rc, v2, b, v3, h1, h2, -, -⟩
        cases h1; rw [hw] at h2; cases h2
      · intro err v1 h1; cases h1
      · intro r v1 err v2 h1 h2
        cases h1; rw [hw] at h2; cases h2; simp
      · intro r v1 rc v2 err v3 h1 h2
        cases h1; rw [hw] at h2; cases h2
    | ok receipt =>
      rcases hb : sdk.BalanceAt toAddr w2 with ⟨rb, w3⟩
      cases rb with
      | error e =>
        simp only [hs, hw, hb]
        refine ⟨⟨fun h => by simp at h, ?_⟩, ⟨fun h => by simp at h, ?_⟩, ?_, ?_, ?_⟩
        · rintro ⟨r, v1, rc, v2, b, v3, h1, h2, h3, -⟩
          cases h1; rw [hw] at h2; cases h2; rw [hb] at h3; cases h3
        · rintro ⟨r, v1, rc, v2, b, v3, h1, h2, h3, -⟩
          cases h1; rw [hw] at h2; cases h2; rw [hb] at h3; cases h3
        · intro err v1 h1; cases h1
        · intro r v1 err v2 h1 h2
          cases h1; rw [hw] at h2; cases h2
        · intro r v1 rc v2 err v3 h1 h2 h3
          cases h1; rw [hw] at h2; cases h2; rw [hb] at h3; cases h3
          simp
      | ok balance =>
        simp only [hs, hw, hb]
        by_cases hbv : balance = value
        · simp only [ne_eq, hbv, not_true_eq_false, if_false]
          refine ⟨⟨fun h => by simp at h, ?_⟩, ⟨fun _ => ?_, fun _ => trivial⟩, ?_, ?_, ?_⟩
          · rintro ⟨r, v1, rc, v2, b, v3, h1, h2, h3, h4⟩
            cases h1; rw [hw] at h2; cases h2; rw [hb] at h3; cases h3
            exact absurd hbv h4
          · exact ⟨result, w1, receipt, w2, balance, w3, rfl, hw, hb, hbv⟩
          · intro err v1 h1; cases h1
          · intro r v1 err v2 h1 h2
            cases h1; rw [hw] at h2; cases h2
          · intro r v1 rc v2 err v3 h1 h2 h3
            cases h1; rw [hw] at h2; cases h2; rw [hb] at h3; cases h3
        · simp only [ne_eq, hbv, not_false_eq_true, if_true]
          refine ⟨⟨fun _ => ?_, fun _ => trivial⟩, ⟨fun h => by simp at h, ?_⟩, ?_, ?_, ?_⟩
          · exact ⟨result, w1, receipt, w2, balance, w3, rfl, hw, hb, hbv⟩
          · rintro ⟨r, v1, rc, v2, b, v3, h1, h2, h3, h4⟩
            cases h1; rw [hw] at h2; cases h2; rw [hb] at h3; cases h3
            exact absurd h4 hbv
          · intro err v1 h1; cases h1
          · intro r v1 err v2 h1 h2
            cases h1; rw [hw] at h2; cases h2
          · intro r v1 rc v2 err v3 h1 h2 h3
            cases h1; rw [hw] at h2; cases h2; rw [hb] at h3; cases h3

/-- Witness for C5: amount 1000 with a reported balance of 900 gives
`errFundAccount`. -/
theorem FundAccount_result_witness :
    (FundAccount (scriptedSdk (.ok { hash := 7 }) (.ok sampleReceipt) (.ok 900))
        (List.replicate 20 0xab) 1000 0).result = some .errFundAccount :=
  (FundAccount_result (scriptedSdk (.ok { hash := 7 }) (.ok sampleReceipt) (.ok 900))
    (List.replicate 20 0xab) 1000 0).1.mpr
    ⟨{ hash := 7 }, 1, sampleReceipt, 2, 900, 3, rfl, rfl, rfl, by decide⟩

/-- C9 as stated fails: on a ledger where the recipient already holds 5, a
transfer of 1000 is submitted and mined, the balance becomes 1005, and
`FundAccount` returns `errFundAccount`. -/
theorem FundAccount_prefunded_counterexample :
    (FundAccount (ledgerSdk (fun _ => none) (fun _ => none)) (List.replicate 20 0xab) 1000
        { balance := fun _ => 5, pool := [] }).result = some .errFundAccount
      ∧ (FundAccount (ledgerSdk (fun _ => none) (fun _ => none)) (List.replicate 20 0xab) 1000
        { balance := fun _ => 5, pool := [] }).calls = [.send, .wait, .balanceAt]
      ∧ (FundAccount (ledgerSdk (fun _ => none) (fun _ => none)) (List.replicate 20 0xab) 1000
        { balance := fun _ => 5, pool := [] }).world.balance (List.replicate 20 0xab) = 1005 := by
  decide

/-- C9, amended: over the ledger model, for every prior ledger state in which
the recipient's balance is zero, every address and every amount, when the
transfer is submitted and mined successfully `FundAccount` returns nil and the
balance it observes (the recipient's balance afterwards) equals the amount. -/
theorem FundAccount_fresh_account (accept mine : LegacyTx → Option RemoteError) (w : Ledger)
    (toAddr : Address) (value : Int)
    (haccept : accept { Value := value, To := toAddr } = none)
    (hmine : mine { Value := value, To := toAddr } = none)
    (hfresh : w.balance toAddr = 0) :
    (FundAccount (ledgerSdk accept mine) toAddr value w).result = none
      ∧ (ledgerSdk accept mine).BalanceAt toAddr
          (FundAccount (ledgerSdk accept mine) toAddr value w).world
        = (.ok value, (FundAccount (ledgerSdk accept mine) toAddr value w).world) := by
  simp [FundAccount, ledgerSdk, haccept, hmine, hfresh]

/-- Witness for the amended C9: funding a fresh account with 1000. -/
theorem FundAccount_fresh_account_witness :
    (FundAccount (ledgerSdk (fun _ => none) (fun _ => none)) (List.replicate 20 0xab) 1000
        { balance := fun _ => 0, pool := [] }).result = none :=
  (FundAccount_fresh_account (fun _ => none) (fun _ => none) { balance := fun _ => 0, pool := [] }
    (List.replicate 20 0xab) 1000 rfl rfl rfl).1

/-! ## `Contract.Ref`: properties -/

theorem Ref_eq (heap : Heap) (c : Ptr) (h : Contract) (acct : PrivKey)
    (hc : heap[c]? = some h) :
    Ref heap c acct = some (heap.length, heap ++ [reboundContract h acct]) := by
  simp [Ref, hc, reboundContract]

theorem getElem?_append_one (heap : Heap) (x : Contract) (q : Nat) (hq : q < heap.length) :
    (heap ++ [x])[q]? = heap[q]? := by
  rw [List.getElem?_append_left hq]

theorem deployedContract_address (receiptContractAddress : Address) (artifactAbi : Option ABI)
    (f : Ptr) (clt : SdkClient) :
    (deployedContract receiptContractAddress artifactAbi f clt).sdkContract.addr
      = (deployedContract receiptContractAddress artifactAbi f clt).addr := rfl

/-- C6 as stated fails: for the handle built from the exported embedded field
alone (sdk contract on `7777..77`, field `addr` zero), `Ref` returns a handle
whose `Address()` is the zero address, not the `Address()` of the original. -/
theorem Ref_address_counterexample :
    Ref [foreignContract] 0 { Priv := [1] }
        = some (1, [foreignContract, reboundContract foreignContract { Priv := [1] }])
      ∧ (reboundContract foreignContract { Priv := [1] }).Address = List.replicate 20 0
      ∧ foreignContract.Address = List.replicate 20 0x77
      ∧ (reboundContract foreignContract { Priv := [1] }).Address ≠ foreignContract.Address := by
  decide

/-- C6, amended: for a handle `h` at reference `c` and any identities `ids`,
the `Ref` calls on `c` all succeed; each returns a fresh reference, different
from `c`, to a handle with the address, ABI and framework reference of `h`,
whose `Address()` is the field `h.addr`; that is `h.Address()` when the
embedded sdk contract of `h` is on `h.addr`, as in every handle `DeployContract`
or `Ref` builds; and the store still holds `h`, and every earlier handle,
unchanged. -/
theorem Ref_pure (heap : Heap) (c : Ptr) (h : Contract) (ids : List PrivKey)
    (hc : heap[c]? = some h) :
    ∃ ps heap1, RefAll heap c ids = some (ps, heap1)
      ∧ ps.length = ids.length
      ∧ heap1[c]? = some h
      ∧ (∀ q, q < heap.length → heap1[q]? = heap[q]?)
      ∧ ∀ p ∈ ps, p ≠ c ∧ heap[p]? = none
        ∧ ∃ h1, heap1[p]? = some h1 ∧ h1.addr = h.addr ∧ h1.abi = h.abi ∧ h1.fr = h.fr
          ∧ h1.Address = h.addr
          ∧ (h.sdkContract.addr = h.addr → h1.Address = h.Address) := by
  induction ids generalizing heap with
  | nil => exact ⟨[], heap, rfl, rfl, hc, fun _ _ => rfl, by simp⟩
  | cons acct rest ih =>
    have hlt : c < heap.length := by
      rcases Nat.lt_or_ge c heap.length with h1 | h1
      · exact h1
      · rw [List.getElem?_eq_none h1] at hc; cases hc
    have hc1 : (heap ++ [reboundContract h acct])[c]? = some h := by
      rw [getElem?_append_one _ _ _ hlt]; exact hc
    obtain ⟨ps, heap2, hall, hlen, hkeep, hold, hnew⟩ := ih _ hc1
    refine ⟨heap.length :: ps, heap2, ?_, ?_, hkeep, ?_, ?_⟩
    · simp [RefAll, Ref_eq heap c h acct hc, hall]
    · simp [hlen]
    · intro q hq
      rw [hold q (by simp; omega), getElem?_append_one _ _ _ hq]
    · intro p hp
      rcases List.mem_cons.mp hp with hp | hp
      · subst hp
        refine ⟨Nat.ne_of_gt hlt, List.getElem?_eq_none (le_refl _), ?_⟩
        refine ⟨reboundContract h acct, ?_, rfl, rfl, rfl, rfl, ?_⟩
        · rw [hold heap.length (by simp)]
          simp
        · intro hinv
          simp [Contract.Address, SdkContract.Address, GetContract, reboundContract, hinv]
      · obtain ⟨hne, hfresh, h1, hh1, ha, hb, hf, hA, hinv⟩ := hnew p hp
        refine ⟨hne, ?_, h1, hh1, ha, hb, hf, hA, hinv⟩
        rcases Nat.lt_or_ge p heap.length with hlt2 | hge
        · rw [getElem?_append_one _ _ _ hlt2] at hfresh; exact hfresh
        · exact List.getElem?_eq_none hge

/-- Witness for the amended C6: two `Ref` calls on a deployed handle return
handles on the same address and leave the deployed handle in place. -/
theorem Ref_pure_witness :
    ∃ ps heap1, RefAll [sampleContract] 0 [{ Priv := [1] }, { Priv := [2] }] = some (ps, heap1)
      ∧ ps.length = 2
      ∧ heap1[0]? = some sampleContract
      ∧ ∀ p ∈ ps, p ≠ 0
        ∧ ∃ h1, heap1[p]? = some h1 ∧ h1.addr = sampleContract.addr
          ∧ h1.abi = sampleContract.abi ∧ h1.fr = sampleContract.fr
          ∧ h1.Address = sampleContract.Address := by
  obtain ⟨ps, heap1, h1, h2, h3, -, h5⟩ :=
    Ref_pure [sampleContract] 0 sampleContract [{ Priv := [1] }, { Priv := [2] }] rfl
  refine ⟨ps, heap1, h1, h2, h3, fun p hp => ?_⟩
  obtain ⟨hne, -, k, hk, ha, hb, hf, -, hinv⟩ := h5 p hp
  exact ⟨hne, k, hk, ha, hb, hf,
    hinv (deployedContract_address _ _ _ _)⟩

/-! ## `ReadArtifact`: properties -/

theorem ReadArtifact_ok (host : Host) (path : String) (data : Bytes) (doc : ArtifactJSON)
    (art : Artifact)
    (hread : host.ReadFile path = .ok data) (hjson : host.Unmarshal data = .ok doc)
    (hok : ReadArtifact host path = .returned (.ok art)) :
    2 ≤ doc.Bytecode.Object.length
      ∧ DecodeString (doc.Bytecode.Object.drop 2) = (art.Code, none)
      ∧ art.Abi = doc.Abi := by
  unfold ReadArtifact at hok
  simp only [hread, hjson] at hok
  split at hok
  · simp at hok
  · split at hok
    · simp at hok
    · split at hok
      · simp at hok
      · rename_i hlen code hdec
        simp only [Outcome.returned.injEq, Except.ok.injEq] at hok
        subst hok
        exact ⟨by omega, hdec, rfl⟩

/-- C7 as stated fails: the document with `bytecode.object` equal to `0xAB`
loads, and re-encoding the code gives `0xab`, not `0xAB`. -/
theorem ReadArtifact_roundtrip_counterexample :
    ReadArtifact
        (hostOf (ascii "\x7b\"bytecode\":\x7b\"object\":\"0xAB\"\x7d\x7d")
          { Abi := none, Bytecode := { Object := ascii "0xAB" } })
        "Puzzle.sol/ChillRobotPuzzle.json"
        = .returned (.ok { Abi := none, Code := [0xab] })
      ∧ ascii "0x" ++ EncodeToString [0xab] ≠ ascii "0xAB" := by
  decide

/-- C7, amended: for every artifact document that `ReadArtifact` loads
successfully and whose `bytecode.object` starts with `0x` and has no upper-case
hex digit, `0x` followed by the hex encoding of the returned `Code` is the
document's `bytecode.object`. -/
theorem ReadArtifact_roundtrip (host : Host) (path : String) (data : Bytes)
    (doc : ArtifactJSON) (art : Artifact)
    (hread : host.ReadFile path = .ok data) (hjson : host.Unmarshal data = .ok doc)
    (hok : ReadArtifact host path = .returned (.ok art))
    (hpre : HasPrefix doc.Bytecode.Object (ascii "0x") = true)
    (hlow : ∀ ch ∈ doc.Bytecode.Object, ¬ isUpperHex ch) :
    ascii "0x" ++ EncodeToString art.Code = doc.Bytecode.Object := by
  obtain ⟨-, hdec, -⟩ := ReadArtifact_ok host path data doc art hread hjson hok
  have henc : EncodeToString art.Code = doc.Bytecode.Object.drop 2 :=
    EncodeToString_of_DecodeString _ _ hdec (fun ch hch => hlow ch (List.mem_of_mem_drop hch))
  have htake : doc.Bytecode.Object.take 2 = ascii "0x" := by
    simp only [HasPrefix, Bool.and_eq_true, decide_eq_true_eq] at hpre
    exact hpre.2
  rw [henc, ← htake, List.take_append_drop]

/-- Witness for the amended C7: the document with object `0x60ab`. -/
theorem ReadArtifact_roundtrip_witness :
    ascii "0x" ++ EncodeToString [0x60, 0xab] = ascii "0x60ab" :=
  ReadArtifact_roundtrip
    (hostOf (ascii "\x7b\"bytecode\":\x7b\"object\":\"0x60ab\"\x7d\x7d")
      { Abi := none, Bytecode := { Object := ascii "0x60ab" } })
    "Puzzle.sol/ChillRobotPuzzle.json"
    (ascii "\x7b\"bytecode\":\x7b\"object\":\"0x60ab\"\x7d\x7d")
    { Abi := none, Bytecode := { Object := ascii "0x60ab" } }
    { Abi := none, Code := [0x60, 0xab] }
    rfl (by decide) (by decide) (by decide) (by decide)

/-- C8 (the code on a short object): when the file is read and parses as JSON
but `bytecode.object` has fewer than two bytes (absent, empty or one
character), `ReadArtifact` returns neither an artifact nor an error: the slice
expression `Object[2:]` faults with slice bounds out of range. -/
theorem ReadArtifact_short_object_faults (host : Host) (path : String) (data : Bytes)
    (doc : ArtifactJSON)
    (hcaller : host.callerOk = true)
    (hread : host.ReadFile path = .ok data) (hjson : host.Unmarshal data = .ok doc)
    (hshort : doc.Bytecode.Object.length < 2) :
    ReadArtifact host path = .panicked .sliceBoundsOutOfRange := by
  simp [ReadArtifact, hcaller, hread, hjson, hshort]

/-- Witness for C8: the file content `{}` decodes to the zero document, whose
object is empty. -/
theorem ReadArtifact_short_object_faults_witness :
    ReadArtifact (hostOf (ascii "\x7b\x7d") { Abi := none, Bytecode := { Object := [] } })
        "Puzzle.sol/ChillRobotPuzzle.json" = .panicked .sliceBoundsOutOfRange :=
  ReadArtifact_short_object_faults
    (hostOf (ascii "\x7b\x7d") { Abi := none, Bytecode := { Object := [] } })
    "Puzzle.sol/ChillRobotPuzzle.json" (ascii "\x7b\x7d")
    { Abi := none, Bytecode := { Object := [] } } rfl rfl (by decide) (by decide)

/-- C10 as stated fails: the document with `bytecode.object` equal to `0x`
loads with an empty `Code`. -/
theorem ReadArtifact_empty_code_counterexample :
    ReadArtifact
        (hostOf (ascii "\x7b\"bytecode\":\x7b\"object\":\"0x\"\x7d\x7d")
          { Abi := none, Bytecode := { Object := ascii "0x" } })
        "Puzzle.sol/ChillRobotPuzzle.json"
      = .returned (.ok { Abi := none, Code := [] }) := by
  decide

/-- C10, amended: every artifact that `ReadArtifact` returns without error
from a document whose `bytecode.object` has more than two characters has a
non-empty `Code`. -/
theorem ReadArtifact_code_nonempty (host : Host) (path : String) (data : Bytes)
    (doc : ArtifactJSON) (art : Artifact)
    (hread : host.ReadFile path = .ok data) (hjson : host.Unmarshal data = .ok doc)
    (hok : ReadArtifact host path = .returned (.ok art))
    (hlong : 2 < doc.Bytecode.Object.length) :
    0 < art.Code.length := by
  obtain ⟨-, hdec, -⟩ := ReadArtifact_ok host path data doc art hread hjson hok
  have hne : doc.Bytecode.Object.drop 2 ≠ [] := by
    intro h
    have := congrArg List.length h
    simp at this
    omega
  exact List.length_pos.mpr (DecodeString_ne_nil _ _ hdec hne)

/-- Witness for the amended C10: the document with object `0x6080`. -/
theorem ReadArtifact_code_nonempty_witness :
    0 < ([0x60, 0x80] : Bytes).length :=
  ReadArtifact_code_nonempty
    (hostOf (ascii "\x7b\"bytecode\":\x7b\"object\":\"0x6080\"\x7d\x7d")
      { Abi := none, Bytecode := { Object := ascii "0x6080" } })
    "Puzzle.sol/ChillRobotPuzzle.json"
    (ascii "\x7b\"bytecode\":\x7b\"object\":\"0x6080\"\x7d\x7d")
    { Abi := none, Bytecode := { Object := ascii "0x6080" } }
    { Abi := none, Code := [0x60, 0x80] }
    rfl (by decide) (by decide) (by decide)

end SuavePuzzle
